import Mathlib

/-!
Verification of the trading-journal core (journal_core.py and the legacy
options_journal_app.py): the PnL calculator, the yearly/portfolio
aggregators, and the close-leg operation, shallowly embedded over lists of
leg records.  Prices and PnL are modelled as rationals, nullable columns as
`Option`, and a parsed calendar date as `JDate` (`none` standing for an
unparsable / NaT entry).
-/

/-- A calendar date as produced by a successful date parse. -/
structure JDate where
  year : Int
  month : Nat
  day : Nat
deriving DecidableEq, Repr

/-- One leg record, with the columns of REQUIRED_COLUMNS in journal_core.py.
Nullable columns are `Option`; `pnl` is the stored pnl column. -/
structure Leg where
  id : Int
  group_id : Option Int
  category : Option String
  asset_type : Option String
  ticker : String
  option_type : Option String
  strike : Option ℚ
  expiry : Option JDate
  contracts_or_shares : ℚ
  direction : Option String
  leg_role : Option String
  entry_date : Option JDate
  entry_underlying_px : Option ℚ
  option_entry_price : Option ℚ
  exit_date : Option JDate
  exit_underlying_px : Option ℚ
  option_exit_price : Option ℚ
  pnl : Option ℚ
  comments : String
  is_open : Bool
deriving DecidableEq, Repr

/-- journal_core.calculate_pnl: returns none when direction is missing;
otherwise stock legs use the underlying entry/exit prices, option legs the
option entry/exit prices with the 100 contract multiplier. -/
def calculate_pnl (row : Leg) : Option ℚ :=
  match row.direction with
  | none => none
  | some d =>
    let direction_mult : ℚ := if d = "Long" then 1 else -1
    if row.asset_type = some "Stock" then
      match row.entry_underlying_px, row.exit_underlying_px with
      | some e, some x => some ((x - e) * row.contracts_or_shares * direction_mult)
      | _, _ => none
    else if row.asset_type = some "Option" then
      match row.option_entry_price, row.option_exit_price with
      | some e, some x => some ((x - e) * row.contracts_or_shares * 100 * direction_mult)
      | _, _ => none
    else none

/-- options_journal_app.calculate_pnl (legacy): no missing-direction guard,
so a missing direction falls into the Short multiplier branch. -/
def calculate_pnl_legacy (row : Leg) : Option ℚ :=
  let direction_mult : ℚ := if row.direction = some "Long" then 1 else -1
  if row.asset_type = some "Stock" then
    match row.entry_underlying_px, row.exit_underlying_px with
    | some e, some x => some ((x - e) * row.contracts_or_shares * direction_mult)
    | _, _ => none
  else if row.asset_type = some "Option" then
    match row.option_entry_price, row.option_exit_price with
    | some e, some x => some ((x - e) * row.contracts_or_shares * 100 * direction_mult)
    | _, _ => none
  else none

/-- C1: for every Stock leg with a Long or Short direction and both
underlying prices present, calculate_pnl returns
(exit − entry) * contracts_or_shares * m with m = +1 for Long, −1 for
Short. -/
theorem C1_stock_pnl (l : Leg) (e x : ℚ)
    (hA : l.asset_type = some "Stock")
    (hd : l.direction = some "Long" ∨ l.direction = some "Short")
    (he : l.entry_underlying_px = some e)
    (hx : l.exit_underlying_px = some x) :
    calculate_pnl l =
      some ((x - e) * l.contracts_or_shares *
        (if l.direction = some "Long" then 1 else -1)) := by
  rcases hd with hd | hd <;>
    simp [calculate_pnl, hA, hd, he, hx]

/-- A concrete Stock leg: entry 100, exit 110, quantity 5, direction Long. -/
def stockLongLeg : Leg :=
  { id := 1, group_id := some 1, category := some "Breakout Trades",
    asset_type := some "Stock", ticker := "AAPL", option_type := none,
    strike := none, expiry := none, contracts_or_shares := 5,
    direction := some "Long", leg_role := some "Core",
    entry_date := some ⟨2024, 3, 1⟩, entry_underlying_px := some 100,
    option_entry_price := none, exit_date := some ⟨2024, 4, 1⟩,
    exit_underlying_px := some 110, option_exit_price := none,
    pnl := some 50, comments := "", is_open := false }

/-- The same Stock leg with direction Short. -/
def stockShortLeg : Leg :=
  { stockLongLeg with id := 2, direction := some "Short", pnl := some (-50) }

theorem C1_stock_pnl_witness :
    calculate_pnl stockLongLeg = some 50 ∧
    calculate_pnl stockShortLeg = some (-50) := by
  constructor
  · have h := C1_stock_pnl stockLongLeg 100 110 rfl (Or.inl rfl) rfl rfl
    rw [h]
    norm_num [stockLongLeg]
  · have h := C1_stock_pnl stockShortLeg 100 110 rfl (Or.inr rfl) rfl rfl
    rw [h]
    norm_num [stockShortLeg, stockLongLeg,
      (by decide : ¬ ("Short" : String) = "Long")]

/-- C2: for every Option leg with a Long or Short direction and both option
prices present, calculate_pnl returns
(exit − entry) * contracts_or_shares * 100 * m with m = +1 for Long, −1 for
Short. -/
theorem C2_option_pnl (l : Leg) (e x : ℚ)
    (hA : l.asset_type = some "Option")
    (hd : l.direction = some "Long" ∨ l.direction = some "Short")
    (he : l.option_entry_price = some e)
    (hx : l.option_exit_price = some x) :
    calculate_pnl l =
      some ((x - e) * l.contracts_or_shares * 100 *
        (if l.direction = some "Long" then 1 else -1)) := by
  have hSO : l.asset_type ≠ some "Stock" := by
    rw [hA]
    simp [(by decide : ("Option" : String) ≠ "Stock")]
  rcases hd with hd | hd <;>
    simp [calculate_pnl, hA, hSO, hd, he, hx]

/-- A concrete Option leg: entry 2.00, exit 3.50, 10 contracts, Long. -/
def optionLongLeg : Leg :=
  { id := 3, group_id := some 2, category := some "Income",
    asset_type := some "Option", ticker := "AAPL",
    option_type := some "Call", strike := some 100,
    expiry := some ⟨2024, 6, 21⟩, contracts_or_shares := 10,
    direction := some "Long", leg_role := some "Core",
    entry_date := some ⟨2024, 3, 1⟩, entry_underlying_px := some 100,
    option_entry_price := some 2, exit_date := some ⟨2024, 4, 1⟩,
    exit_underlying_px := some 108, option_exit_price := some (7/2),
    pnl := some 1500, comments := "", is_open := false }

theorem C2_option_pnl_witness :
    calculate_pnl optionLongLeg = some 1500 := by
  have h := C2_option_pnl optionLongLeg 2 (7/2) rfl (Or.inl rfl) rfl rfl
  rw [h]
  norm_num [optionLongLeg]

/-- C3: calculate_pnl returns none exactly when the direction is missing, or
the asset_type is neither Stock nor Option, or the required price pair for
the leg's asset type is not fully present. -/
theorem C3_none_characterisation (l : Leg) :
    calculate_pnl l = none ↔
      l.direction = none ∨
      (l.asset_type ≠ some "Stock" ∧ l.asset_type ≠ some "Option") ∨
      (l.asset_type = some "Stock" ∧
        (l.entry_underlying_px = none ∨ l.exit_underlying_px = none)) ∨
      (l.asset_type = some "Option" ∧
        (l.option_entry_price = none ∨ l.option_exit_price = none)) := by
  have hSO : ("Stock" : String) ≠ "Option" := by decide
  rcases hdir : l.direction with _ | d
  · simp [calculate_pnl, hdir]
  · by_cases hS : l.asset_type = some "Stock"
    · rcases hep : l.entry_underlying_px with _ | e <;>
        rcases hxp : l.exit_underlying_px with _ | x <;>
          simp [calculate_pnl, hdir, hS, hep, hxp, hSO]
    · by_cases hO : l.asset_type = some "Option"
      · rcases hep : l.option_entry_price with _ | e <;>
          rcases hxp : l.option_exit_price with _ | x <;>
            simp [calculate_pnl, hdir, hS, hO, hep, hxp]
      · simp [calculate_pnl, hdir, hS, hO]

/-- A leg with an unknown asset type, on which calculate_pnl returns none. -/
def badAssetLeg : Leg :=
  { stockLongLeg with id := 4, asset_type := some "Future" }

theorem C3_none_characterisation_witness :
    calculate_pnl badAssetLeg = none ↔
      badAssetLeg.direction = none ∨
      (badAssetLeg.asset_type ≠ some "Stock" ∧
        badAssetLeg.asset_type ≠ some "Option") ∨
      (badAssetLeg.asset_type = some "Stock" ∧
        (badAssetLeg.entry_underlying_px = none ∨
          badAssetLeg.exit_underlying_px = none)) ∨
      (badAssetLeg.asset_type = some "Option" ∧
        (badAssetLeg.option_entry_price = none ∨
          badAssetLeg.option_exit_price = none)) :=
  C3_none_characterisation badAssetLeg

/-- C10: wherever direction is present the two calculate_pnl
implementations agree; when it is missing, journal_core returns none while
the legacy version behaves as if the direction were Short. -/
theorem C10_refinement (l : Leg) :
    (∀ d, l.direction = some d → calculate_pnl l = calculate_pnl_legacy l) ∧
    (l.direction = none →
      calculate_pnl l = none ∧
      calculate_pnl_legacy l =
        calculate_pnl_legacy { l with direction := some "Short" }) := by
  constructor
  · intro d hd
    by_cases hdl : d = "Long" <;>
      simp [calculate_pnl, calculate_pnl_legacy, hd, hdl]
  · intro hd
    refine ⟨by simp [calculate_pnl, hd], ?_⟩
    simp [calculate_pnl_legacy, hd,
      (by decide : ("Short" : String) ≠ "Long")]

/-- A leg with a missing direction. -/
def noDirectionLeg : Leg :=
  { stockLongLeg with id := 5, direction := none }

theorem C10_refinement_witness :
    calculate_pnl stockLongLeg = calculate_pnl_legacy stockLongLeg ∧
    calculate_pnl noDirectionLeg = none ∧
    calculate_pnl_legacy noDirectionLeg =
      calculate_pnl_legacy { noDirectionLeg with direction := some "Short" } := by
  refine ⟨(C10_refinement stockLongLeg).1 "Long" rfl, ?_, ?_⟩
  · exact ((C10_refinement noDirectionLeg).2 rfl).1
  · exact ((C10_refinement noDirectionLeg).2 rfl).2

/-! ## Aggregators (compute_yearly_summary, compute_portfolio_summary) -/

/-- The per-row filter shared by both aggregators: closed, non-null pnl,
parsable entry_date (journal_core.py lines 134-139 / 222-231). -/
def closedDated (legs : List Leg) : List Leg :=
  legs.filter (fun l => !l.is_open && l.pnl.isSome && l.entry_date.isSome)

/-- The entry year of a leg (0 for an unparsable date; only used
after the closedDated filter, where the date is present). -/
def legYear (l : Leg) : Int :=
  match l.entry_date with
  | some d => d.year
  | none => 0

/-- win rate = winning / total, 0 when total is 0 (the guarded division
in journal_core.py lines 158, 184, 254, 284, 310). -/
def wrOf (winning trade : Nat) : ℚ :=
  if trade = 0 then 0 else (winning : ℚ) / (trade : ℚ)

/-- The distinct (entry_year, group_id) keys of the per-category grouping
(groupby with dropna=False: all-null group ids form one key per year). -/
def groupKeysY (dc : List Leg) : List (Int × Option Int) :=
  (dc.map (fun l => (legYear l, l.group_id))).dedup

/-- The pnl sum of the member legs of one (entry_year, group_id) key. -/
def groupPnl (dc : List Leg) (k : Int × Option Int) : ℚ :=
  ((dc.filter (fun l => legYear l == k.1 && l.group_id == k.2)).map
    (fun l => l.pnl.getD 0)).sum

/-- The distinct entry years of the filtered legs, ascending (the order
pandas groupby and sort_values("Year") produce). -/
def sortedYears (dc : List Leg) : List Int :=
  List.insertionSort (· ≤ ·) ((dc.map legYear).dedup)

/-- One row of the yearly summary table. -/
structure YearStats where
  year : Int
  total_pnl : ℚ
  trade_groups : Nat
  winning_groups : Nat
  win_rate : ℚ
  total_legs : Nat
  long_legs : Nat
  short_legs : Nat
deriving DecidableEq, Repr

/-- The overall metrics record. -/
structure OverallStats where
  total_pnl : ℚ
  trade_groups : Nat
  winning_groups : Nat
  win_rate : ℚ
  total_legs : Nat
  long_legs : Nat
  short_legs : Nat
deriving DecidableEq, Repr

/-- One row of the portfolio by-year-and-category table. -/
structure CatYearStats where
  year : Int
  category : String
  total_pnl : ℚ
  trade_groups : Nat
  winning_groups : Nat
  win_rate : ℚ
  total_legs : Nat
  long_legs : Nat
  short_legs : Nat
deriving DecidableEq, Repr

/-- The yearly-summary row for one entry year (journal_core.py 153-174). -/
def yearRow (dc : List Leg) (y : Int) : YearStats :=
  let pnls := ((groupKeysY dc).filter (fun k => k.1 == y)).map (groupPnl dc)
  let trade_groups := pnls.length
  let winning_groups := (pnls.filter (fun p => decide (0 < p))).length
  let ylegs := dc.filter (fun l => legYear l == y)
  { year := y
    total_pnl := pnls.sum
    trade_groups := trade_groups
    winning_groups := winning_groups
    win_rate := wrOf winning_groups trade_groups
    total_legs := ylegs.length
    long_legs := (ylegs.filter (fun l => l.direction == some "Long")).length
    short_legs := (ylegs.filter (fun l => l.direction == some "Short")).length }

/-- The overall record of compute_yearly_summary (lines 181-198). -/
def yOverall (dc : List Leg) : OverallStats :=
  let pnls := (groupKeysY dc).map (groupPnl dc)
  let trade_groups := pnls.length
  let winning_groups := (pnls.filter (fun p => decide (0 < p))).length
  { total_pnl := pnls.sum
    trade_groups := trade_groups
    winning_groups := winning_groups
    win_rate := wrOf winning_groups trade_groups
    total_legs := dc.length
    long_legs := (dc.filter (fun l => l.direction == some "Long")).length
    short_legs := (dc.filter (fun l => l.direction == some "Short")).length }

/-- compute_yearly_summary after its closed/dated filter: empty input gives
empty outputs, otherwise one row per entry year plus the overall record. -/
def yearlySummaryClosed (dc : List Leg) :
    List YearStats × Option OverallStats :=
  if dc.isEmpty then ([], none)
  else ((sortedYears dc).map (yearRow dc), some (yOverall dc))

/-- journal_core.compute_yearly_summary on a (category-filtered) leg list. -/
def compute_yearly_summary (df_cat : List Leg) :
    List YearStats × Option OverallStats :=
  yearlySummaryClosed (closedDated df_cat)

/-- The distinct (entry_year, category, group_id) keys of the portfolio
grouping (groupby with dropna=False). -/
def pKeys (dc : List Leg) : List (Int × Option String × Option Int) :=
  (dc.map (fun l => (legYear l, l.category, l.group_id))).dedup

/-- The pnl sum of the member legs of one portfolio grouping key. -/
def pGroupPnl (dc : List Leg) (k : Int × Option String × Option Int) : ℚ :=
  ((dc.filter (fun l =>
        legYear l == k.1 && l.category == k.2.1 && l.group_id == k.2.2)).map
    (fun l => l.pnl.getD 0)).sum

/-- The distinct (entry_year, category) pairs with a present category,
sorted by year then category (groupby with dropna=True drops null
categories, then sort_values(["Year", "Category"])). -/
def catYearPairs (dc : List Leg) : List (Int × String) :=
  List.insertionSort
    (fun a b => a.1 < b.1 ∨ (a.1 = b.1 ∧ a.2 ≤ b.2))
    ((dc.filterMap (fun l => l.category.map (fun c => (legYear l, c)))).dedup)

/-- One portfolio by-year-and-category row (journal_core.py 249-271). -/
def pCatYearRow (dc : List Leg) (p : Int × String) : CatYearStats :=
  let pnls := ((pKeys dc).filter
    (fun k => k.1 == p.1 && k.2.1 == some p.2)).map (pGroupPnl dc)
  let trade_groups := pnls.length
  let winning_groups := (pnls.filter (fun q => decide (0 < q))).length
  let clegs := dc.filter (fun l => legYear l == p.1 && l.category == some p.2)
  { year := p.1
    category := p.2
    total_pnl := pnls.sum
    trade_groups := trade_groups
    winning_groups := winning_groups
    win_rate := wrOf winning_groups trade_groups
    total_legs := clegs.length
    long_legs := (clegs.filter (fun l => l.direction == some "Long")).length
    short_legs := (clegs.filter (fun l => l.direction == some "Short")).length }

/-- One portfolio by-year row (journal_core.py 279-300): the trade groups of
a year are its distinct (category, group_id) combinations. -/
def pYearRow (dc : List Leg) (y : Int) : YearStats :=
  let pnls := ((pKeys dc).filter (fun k => k.1 == y)).map (pGroupPnl dc)
  let trade_groups := pnls.length
  let winning_groups := (pnls.filter (fun q => decide (0 < q))).length
  let ylegs := dc.filter (fun l => legYear l == y)
  { year := y
    total_pnl := pnls.sum
    trade_groups := trade_groups
    winning_groups := winning_groups
    win_rate := wrOf winning_groups trade_groups
    total_legs := ylegs.length
    long_legs := (ylegs.filter (fun l => l.direction == some "Long")).length
    short_legs := (ylegs.filter (fun l => l.direction == some "Short")).length }

/-- The overall record of compute_portfolio_summary (lines 307-324). -/
def pOverall (dc : List Leg) : OverallStats :=
  let pnls := (pKeys dc).map (pGroupPnl dc)
  let trade_groups := pnls.length
  let winning_groups := (pnls.filter (fun q => decide (0 < q))).length
  { total_pnl := pnls.sum
    trade_groups := trade_groups
    winning_groups := winning_groups
    win_rate := wrOf winning_groups trade_groups
    total_legs := dc.length
    long_legs := (dc.filter (fun l => l.direction == some "Long")).length
    short_legs := (dc.filter (fun l => l.direction == some "Short")).length }

/-- compute_portfolio_summary after its closed/dated filter. -/
def portfolioSummaryClosed (dc : List Leg) :
    List CatYearStats × List YearStats × Option OverallStats :=
  if dc.isEmpty then ([], [], none)
  else ((catYearPairs dc).map (pCatYearRow dc),
        (sortedYears dc).map (pYearRow dc),
        some (pOverall dc))

/-- journal_core.compute_portfolio_summary on the full leg list. -/
def compute_portfolio_summary (df : List Leg) :
    List CatYearStats × List YearStats × Option OverallStats :=
  portfolioSummaryClosed (closedDated df)

/-! ## Shared concrete inputs for the aggregator claims -/

/-- Closed leg, group 7, pnl 100, entry year 2024, Breakout Trades. -/
def groupLegA : Leg :=
  { stockLongLeg with id := 10, group_id := some 7, pnl := some 100 }

/-- Closed leg, group 7, pnl −40, same year and category. -/
def groupLegB : Leg :=
  { stockLongLeg with id := 11, group_id := some 7, pnl := some (-40) }

/-- The two-leg example collection of the spec's grouping property. -/
def exLegs : List Leg := [groupLegA, groupLegB]

/-- C4: in both aggregators, every output row aggregates over the distinct
(year, group) keys of its bucket: the key list has no duplicates (each group
counted exactly once), the trade-group count is its length, the total PnL is
the sum over keys of the member-leg pnl sums, and the winning count is the
number of keys whose member pnl sum is strictly positive. -/
theorem C4_group_aggregation (legs : List Leg) :
    (∀ r ∈ (compute_yearly_summary legs).1,
      ((groupKeysY (closedDated legs)).filter
        (fun k => k.1 == r.year)).Nodup ∧
      r.trade_groups =
        ((groupKeysY (closedDated legs)).filter
          (fun k => k.1 == r.year)).length ∧
      r.total_pnl =
        (((groupKeysY (closedDated legs)).filter
            (fun k => k.1 == r.year)).map (groupPnl (closedDated legs))).sum ∧
      r.winning_groups =
        ((((groupKeysY (closedDated legs)).filter
             (fun k => k.1 == r.year)).map
           (groupPnl (closedDated legs))).filter
          (fun p => decide (0 < p))).length ∧
      (∀ k, groupPnl (closedDated legs) k =
        (((closedDated legs).filter
            (fun l => legYear l == k.1 && l.group_id == k.2)).map
          (fun l => l.pnl.getD 0)).sum)) ∧
    (∀ s ∈ (compute_portfolio_summary legs).1,
      ((pKeys (closedDated legs)).filter
        (fun k => k.1 == s.year && k.2.1 == some s.category)).Nodup ∧
      s.trade_groups =
        ((pKeys (closedDated legs)).filter
          (fun k => k.1 == s.year && k.2.1 == some s.category)).length ∧
      s.total_pnl =
        (((pKeys (closedDated legs)).filter
            (fun k => k.1 == s.year && k.2.1 == some s.category)).map
          (pGroupPnl (closedDated legs))).sum ∧
      s.winning_groups =
        ((((pKeys (closedDated legs)).filter
             (fun k => k.1 == s.year && k.2.1 == some s.category)).map
           (pGroupPnl (closedDated legs))).filter
          (fun q => decide (0 < q))).length ∧
      (∀ k, pGroupPnl (closedDated legs) k =
        (((closedDated legs).filter
            (fun l => legYear l == k.1 && l.category == k.2.1 &&
              l.group_id == k.2.2)).map
          (fun l => l.pnl.getD 0)).sum)) := by
  constructor
  · intro r hr
    obtain ⟨y, hy, rfl⟩ :
        ∃ y, y ∈ sortedYears (closedDated legs) ∧
          r = yearRow (closedDated legs) y := by
      unfold compute_yearly_summary yearlySummaryClosed at hr
      split at hr
      · simp at hr
      · obtain ⟨y, hy, h⟩ := List.mem_map.mp hr
        exact ⟨y, hy, h.symm⟩
    exact ⟨List.Nodup.filter _ (List.nodup_dedup _), List.length_map _ _,
      rfl, rfl, fun k => rfl⟩
  · intro s hs
    obtain ⟨p, hp, rfl⟩ :
        ∃ p, p ∈ catYearPairs (closedDated legs) ∧
          s = pCatYearRow (closedDated legs) p := by
      unfold compute_portfolio_summary portfolioSummaryClosed at hs
      split at hs
      · simp at hs
      · obtain ⟨p, hp, h⟩ := List.mem_map.mp hs
        exact ⟨p, hp, h.symm⟩
    exact ⟨List.Nodup.filter _ (List.nodup_dedup _), List.length_map _ _,
      rfl, rfl, fun k => rfl⟩

/-- The single yearly row the two-leg example produces. -/
def exRowY : YearStats :=
  { year := 2024, total_pnl := 60, trade_groups := 1, winning_groups := 1,
    win_rate := 1, total_legs := 2, long_legs := 2, short_legs := 0 }

/-- The single by-year-and-category row the two-leg example produces. -/
def exRowCY : CatYearStats :=
  { year := 2024, category := "Breakout Trades", total_pnl := 60,
    trade_groups := 1, winning_groups := 1, win_rate := 1, total_legs := 2,
    long_legs := 2, short_legs := 0 }

theorem C4_group_aggregation_witness :
    (compute_yearly_summary exLegs).1 = [exRowY] ∧
    (compute_portfolio_summary exLegs).1 = [exRowCY] ∧
    exRowY.trade_groups =
      ((groupKeysY (closedDated exLegs)).filter
        (fun k => k.1 == exRowY.year)).length ∧
    exRowCY.trade_groups =
      ((pKeys (closedDated exLegs)).filter
        (fun k => k.1 == exRowCY.year &&
          k.2.1 == some exRowCY.category)).length := by
  have h1 : (compute_yearly_summary exLegs).1 = [exRowY] := by
    with_unfolding_all rfl
  have h2 : (compute_portfolio_summary exLegs).1 = [exRowCY] := by
    with_unfolding_all rfl
  have hm1 : exRowY ∈ (compute_yearly_summary exLegs).1 := by
    rw [h1]
    exact List.mem_singleton.mpr rfl
  have hm2 : exRowCY ∈ (compute_portfolio_summary exLegs).1 := by
    rw [h2]
    exact List.mem_singleton.mpr rfl
  exact ⟨h1, h2, ((C4_group_aggregation exLegs).1 exRowY hm1).2.1,
    ((C4_group_aggregation exLegs).2 exRowCY hm2).2.1⟩

/-- C6: a leg that is open, has a null pnl, or has an unparsable entry date
is silently excluded: inserting it anywhere in the collection leaves the
output of both aggregators unchanged. -/
theorem C6_excluded_legs (pre post : List Leg) (l : Leg)
    (hl : l.is_open = true ∨ l.pnl = none ∨ l.entry_date = none) :
    compute_yearly_summary (pre ++ l :: post) =
      compute_yearly_summary (pre ++ post) ∧
    compute_portfolio_summary (pre ++ l :: post) =
      compute_portfolio_summary (pre ++ post) := by
  have hp : (!l.is_open && l.pnl.isSome && l.entry_date.isSome) = false := by
    rcases hl with h | h | h <;> simp [h]
  have hfilter : closedDated (pre ++ l :: post) = closedDated (pre ++ post) := by
    simp [closedDated, List.filter_append, List.filter_cons, hp]
  exact ⟨congrArg yearlySummaryClosed hfilter,
         congrArg portfolioSummaryClosed hfilter⟩

/-- An open leg with no pnl yet. -/
def openLeg : Leg :=
  { stockLongLeg with
      id := 12, is_open := true, pnl := none,
      exit_date := none, exit_underlying_px := none }

theorem C6_excluded_legs_witness :
    compute_yearly_summary ([groupLegA] ++ openLeg :: [groupLegB]) =
      compute_yearly_summary ([groupLegA] ++ [groupLegB]) ∧
    compute_portfolio_summary ([groupLegA] ++ openLeg :: [groupLegB]) =
      compute_portfolio_summary ([groupLegA] ++ [groupLegB]) :=
  C6_excluded_legs [groupLegA] [groupLegB] openLeg (Or.inl rfl)

/-- One aggregation pass over the stored collection: it computes both
summaries and hands the collection back unchanged. -/
def aggregate_once (store : List Leg) :
    ((List YearStats × Option OverallStats) ×
      (List CatYearStats × List YearStats × Option OverallStats)) ×
      List Leg :=
  ((compute_yearly_summary store, compute_portfolio_summary store), store)

/-- C8: the calculator and both aggregators are deterministic and
side-effect free: an aggregation pass leaves the collection unmodified, and
a second pass on the handed-back collection produces identical output. -/
theorem C8_pure (store : List Leg) (l : Leg) :
    (aggregate_once store).2 = store ∧
    (aggregate_once (aggregate_once store).2).1 = (aggregate_once store).1 ∧
    calculate_pnl l = calculate_pnl l :=
  ⟨rfl, rfl, rfl⟩

/-! ## Win-rate safety (C5) -/

/-- Bounds for the guarded win-rate division. -/
theorem wrOf_bounds (wg tg : Nat) (h : wg ≤ tg) :
    0 ≤ wrOf wg tg ∧ wrOf wg tg ≤ 1 ∧
    (tg ≠ 0 → wrOf wg tg = (wg : ℚ) / (tg : ℚ)) ∧
    (tg = 0 → wrOf wg tg = 0) := by
  unfold wrOf
  by_cases h0 : tg = 0
  · subst h0
    norm_num
  · have htg : (0 : ℚ) < (tg : ℚ) := by
      exact_mod_cast Nat.pos_of_ne_zero h0
    have hle : (wg : ℚ) ≤ (tg : ℚ) := by exact_mod_cast h
    refine ⟨?_, ?_, fun _ => by simp [h0], fun hc => absurd hc h0⟩
    · rw [if_neg h0]
      positivity
    · rw [if_neg h0, div_le_one htg]
      exact hle

/-- Every yearly-summary row carries a guarded win rate over its own
winning/trade counts, with winning ≤ trade. -/
theorem yearlyRow_wr_shape (legs : List Leg) (r : YearStats)
    (hr : r ∈ (compute_yearly_summary legs).1) :
    r.win_rate = wrOf r.winning_groups r.trade_groups ∧
    r.winning_groups ≤ r.trade_groups := by
  unfold compute_yearly_summary yearlySummaryClosed at hr
  split at hr
  · simp at hr
  · obtain ⟨y, hy, h⟩ := List.mem_map.mp hr
    subst h
    exact ⟨rfl, List.length_filter_le _ _⟩

/-- The same shape for the yearly-summary overall record. -/
theorem yearlyOverall_wr_shape (legs : List Leg) (o : OverallStats)
    (ho : (compute_yearly_summary legs).2 = some o) :
    o.win_rate = wrOf o.winning_groups o.trade_groups ∧
    o.winning_groups ≤ o.trade_groups := by
  unfold compute_yearly_summary yearlySummaryClosed at ho
  split at ho
  · simp at ho
  · simp only [Option.some.injEq] at ho
    subst ho
    exact ⟨rfl, List.length_filter_le _ _⟩

/-- The same shape for the portfolio by-year-and-category rows. -/
theorem portfolioCat_wr_shape (legs : List Leg) (r : CatYearStats)
    (hr : r ∈ (compute_portfolio_summary legs).1) :
    r.win_rate = wrOf r.winning_groups r.trade_groups ∧
    r.winning_groups ≤ r.trade_groups := by
  unfold compute_portfolio_summary portfolioSummaryClosed at hr
  split at hr
  · simp at hr
  · obtain ⟨p, hp, h⟩ := List.mem_map.mp hr
    subst h
    exact ⟨rfl, List.length_filter_le _ _⟩

/-- The same shape for the portfolio by-year rows. -/
theorem portfolioYear_wr_shape (legs : List Leg) (r : YearStats)
    (hr : r ∈ (compute_portfolio_summary legs).2.1) :
    r.win_rate = wrOf r.winning_groups r.trade_groups ∧
    r.winning_groups ≤ r.trade_groups := by
  unfold compute_portfolio_summary portfolioSummaryClosed at hr
  split at hr
  · simp at hr
  · obtain ⟨y, hy, h⟩ := List.mem_map.mp hr
    subst h
    exact ⟨rfl, List.length_filter_le _ _⟩

/-- The same shape for the portfolio overall record. -/
theorem portfolioOverall_wr_shape (legs : List Leg) (o : OverallStats)
    (ho : (compute_portfolio_summary legs).2.2 = some o) :
    o.win_rate = wrOf o.winning_groups o.trade_groups ∧
    o.winning_groups ≤ o.trade_groups := by
  unfold compute_portfolio_summary portfolioSummaryClosed at ho
  split at ho
  · simp at ho
  · simp only [Option.some.injEq] at ho
    subst ho
    exact ⟨rfl, List.length_filter_le _ _⟩

/-- All (win_rate, trade_groups, winning_groups) triples either aggregator
ever outputs: per-year, per-(year, category), portfolio per-year, and the
two overall records. -/
def winRateTriples (legs : List Leg) : List (ℚ × Nat × Nat) :=
  ((compute_yearly_summary legs).1.map
    (fun r => (r.win_rate, r.trade_groups, r.winning_groups))) ++
  ((compute_yearly_summary legs).2.elim []
    (fun o => [(o.win_rate, o.trade_groups, o.winning_groups)])) ++
  ((compute_portfolio_summary legs).1.map
    (fun r => (r.win_rate, r.trade_groups, r.winning_groups))) ++
  ((compute_portfolio_summary legs).2.1.map
    (fun r => (r.win_rate, r.trade_groups, r.winning_groups))) ++
  ((compute_portfolio_summary legs).2.2.elim []
    (fun o => [(o.win_rate, o.trade_groups, o.winning_groups)]))

/-- C5: every win rate either aggregator produces lies in [0, 1], equals
winning/trade when the trade-group count is positive, and equals 0 when it
is zero — the guarded division never faults. -/
theorem C5_win_rate_safe (legs : List Leg) (wr : ℚ) (tg wg : Nat)
    (h : (wr, tg, wg) ∈ winRateTriples legs) :
    0 ≤ wr ∧ wr ≤ 1 ∧ (tg ≠ 0 → wr = (wg : ℚ) / (tg : ℚ)) ∧
    (tg = 0 → wr = 0) := by
  unfold winRateTriples at h
  simp only [List.mem_append, List.mem_map, Prod.mk.injEq] at h
  rcases h with ((((h | h) | h) | h) | h)
  · obtain ⟨r, hr, hw, ht, hg⟩ := h
    subst hw; subst ht; subst hg
    obtain ⟨hshape, hle⟩ := yearlyRow_wr_shape legs r hr
    rw [hshape]
    exact wrOf_bounds _ _ hle
  · rcases ho : (compute_yearly_summary legs).2 with _ | o
    · rw [ho] at h
      simp at h
    · rw [ho] at h
      simp only [Option.elim, List.mem_singleton, Prod.mk.injEq] at h
      obtain ⟨hw, ht, hg⟩ := h
      subst hw; subst ht; subst hg
      obtain ⟨hshape, hle⟩ := yearlyOverall_wr_shape legs o ho
      rw [hshape]
      exact wrOf_bounds _ _ hle
  · obtain ⟨r, hr, hw, ht, hg⟩ := h
    subst hw; subst ht; subst hg
    obtain ⟨hshape, hle⟩ := portfolioCat_wr_shape legs r hr
    rw [hshape]
    exact wrOf_bounds _ _ hle
  · obtain ⟨r, hr, hw, ht, hg⟩ := h
    subst hw; subst ht; subst hg
    obtain ⟨hshape, hle⟩ := portfolioYear_wr_shape legs r hr
    rw [hshape]
    exact wrOf_bounds _ _ hle
  · rcases ho : (compute_portfolio_summary legs).2.2 with _ | o
    · rw [ho] at h
      simp at h
    · rw [ho] at h
      simp only [Option.elim, List.mem_singleton, Prod.mk.injEq] at h
      obtain ⟨hw, ht, hg⟩ := h
      subst hw; subst ht; subst hg
      obtain ⟨hshape, hle⟩ := portfolioOverall_wr_shape legs o ho
      rw [hshape]
      exact wrOf_bounds _ _ hle

theorem C5_win_rate_safe_witness :
    0 ≤ (1 : ℚ) ∧ (1 : ℚ) ≤ 1 ∧
    ((1 : Nat) ≠ 0 → (1 : ℚ) = ((1 : Nat) : ℚ) / ((1 : Nat) : ℚ)) ∧
    ((1 : Nat) = 0 → (1 : ℚ) = 0) :=
  C5_win_rate_safe exLegs 1 1 1 (of_decide_eq_true (by with_unfolding_all rfl))

/-! ## Null group_id handling (C7) -/

/-- Two closed legs in the same year and category, both with a null
group_id, pnl 100 and −40. -/
def nullGroupLegA : Leg :=
  { stockLongLeg with id := 13, group_id := none, pnl := some 100 }

/-- The second null-group leg. -/
def nullGroupLegB : Leg :=
  { stockLongLeg with id := 14, group_id := none, pnl := some (-40) }

/-- C7 counterexample: two distinct closed legs with null group_id in the
same entry year and category are summed into ONE trade group (pandas
groupby with dropna=False keeps a single all-null key), so the yearly table
has one group with PnL 60 — not the two separate singleton groups the
claim predicts. -/
theorem C7_counterexample :
    nullGroupLegA ≠ nullGroupLegB ∧
    nullGroupLegA.group_id = none ∧ nullGroupLegB.group_id = none ∧
    legYear nullGroupLegA = legYear nullGroupLegB ∧
    nullGroupLegA.category = nullGroupLegB.category ∧
    (compute_yearly_summary [nullGroupLegA, nullGroupLegB]).1 =
      [{ year := 2024, total_pnl := 60, trade_groups := 1,
         winning_groups := 1, win_rate := 1, total_legs := 2,
         long_legs := 2, short_legs := 0 }] ∧
    ¬ ((compute_yearly_summary [nullGroupLegA, nullGroupLegB]).1.map
        (fun r => r.trade_groups) = [2]) := by
  refine ⟨by decide, rfl, rfl, rfl, rfl, ?_, ?_⟩
  · with_unfolding_all rfl
  · intro hcontra
    have h2 : (compute_yearly_summary [nullGroupLegA, nullGroupLegB]).1.map
        (fun r => r.trade_groups) = [1] := by
      with_unfolding_all rfl
    rw [h2] at hcontra
    simp at hcontra

/-- C7 (amended): all closed legs of one entry year with a null group_id
collapse into a single shared pseudo-group: when such a leg exists, the
(year, null) key is among the grouping keys, the key list has no duplicates
(so that key forms exactly one trade group), its group PnL is the sum of
the pnl of all null-group legs of that year, and the portfolio key list is
likewise duplicate-free. -/
theorem C7_null_group_collapsed (legs : List Leg) (y : Int)
    (h : ∃ l, l ∈ closedDated legs ∧ legYear l = y ∧ l.group_id = none) :
    (y, (none : Option Int)) ∈ groupKeysY (closedDated legs) ∧
    (groupKeysY (closedDated legs)).Nodup ∧
    groupPnl (closedDated legs) (y, (none : Option Int)) =
      (((closedDated legs).filter
          (fun l => legYear l == y && l.group_id == (none : Option Int))).map
        (fun l => l.pnl.getD 0)).sum ∧
    (pKeys (closedDated legs)).Nodup := by
  obtain ⟨l, hmem, hy, hg⟩ := h
  refine ⟨?_, List.nodup_dedup _, rfl, List.nodup_dedup _⟩
  unfold groupKeysY
  rw [List.mem_dedup]
  refine List.mem_map.mpr ⟨l, hmem, ?_⟩
  rw [hy, hg]

theorem C7_null_group_collapsed_witness :
    (2024, (none : Option Int)) ∈
      groupKeysY (closedDated [nullGroupLegA, nullGroupLegB]) ∧
    (groupKeysY (closedDated [nullGroupLegA, nullGroupLegB])).Nodup ∧
    groupPnl (closedDated [nullGroupLegA, nullGroupLegB])
        (2024, (none : Option Int)) =
      (((closedDated [nullGroupLegA, nullGroupLegB]).filter
          (fun l => legYear l == (2024 : Int) &&
            l.group_id == (none : Option Int))).map
        (fun l => l.pnl.getD 0)).sum ∧
    (pKeys (closedDated [nullGroupLegA, nullGroupLegB])).Nodup :=
  C7_null_group_collapsed [nullGroupLegA, nullGroupLegB] 2024
    ⟨nullGroupLegA, by decide, rfl, rfl⟩

/-! ## Closing a leg (C9) -/

/-- The close mutation of journal_core.render_year_journal (lines 693-698):
set exit_date, exit_underlying_px, option_exit_price, is_open := false and
the submitted comments, then compute pnl from the updated row. -/
def closeLeg (l : Leg) (exit_date : Option JDate)
    (exit_underlying_px option_exit_price : Option ℚ)
    (updated_comments : String) : Leg :=
  let l1 := { l with
      exit_date := exit_date,
      exit_underlying_px := exit_underlying_px,
      option_exit_price := option_exit_price,
      is_open := false,
      comments := updated_comments }
  { l1 with pnl := calculate_pnl l1 }

/-- Close the first leg whose id matches, leaving the rest untouched (the
handler mutates only the first index returned by the id lookup). -/
def closeLegById : List Leg → Int → Option JDate → Option ℚ → Option ℚ →
    String → List Leg
  | [], _, _, _, _, _ => []
  | l :: ls, i, ed, xp, op, c =>
    if l.id == i then closeLeg l ed xp op c :: ls
    else l :: closeLegById ls i ed xp op c

/-- C9 (amended): closing leg id i preserves, at every position, the
identity, grouping, classification, sizing and entry-side fields; the first
leg whose id matches becomes exactly its closeLeg update (is_open false,
exit_date, exit_underlying_px, option_exit_price and comments set, pnl
recomputed via calculate_pnl on the updated row), and every other leg —
non-matching id, or matching but preceded by an earlier match — is left
exactly unchanged. -/
theorem C9_close_frame (legs : List Leg) (i : Int) (ed : Option JDate)
    (xp op : Option ℚ) (c : String) (j : Nat) (l : Leg)
    (hl : legs[j]? = some l) :
    ∃ l', (closeLegById legs i ed xp op c)[j]? = some l' ∧
      (l.id = i →
        (∀ k, k < j → ∀ b, legs[k]? = some b → b.id ≠ i) →
        (l' = closeLeg l ed xp op c ∧ l'.is_open = false ∧
         l'.exit_date = ed ∧ l'.exit_underlying_px = xp ∧
         l'.option_exit_price = op ∧ l'.comments = c ∧
         l'.pnl = calculate_pnl l')) ∧
      ((l.id ≠ i ∨ ∃ k, k < j ∧ ∃ b, legs[k]? = some b ∧ b.id = i) →
        l' = l) ∧
      l'.id = l.id ∧ l'.group_id = l.group_id ∧ l'.category = l.category ∧
      l'.asset_type = l.asset_type ∧ l'.ticker = l.ticker ∧
      l'.option_type = l.option_type ∧ l'.strike = l.strike ∧
      l'.expiry = l.expiry ∧
      l'.contracts_or_shares = l.contracts_or_shares ∧
      l'.direction = l.direction ∧ l'.leg_role = l.leg_role ∧
      l'.entry_date = l.entry_date ∧
      l'.entry_underlying_px = l.entry_underlying_px ∧
      l'.option_entry_price = l.option_entry_price := by
  induction legs generalizing j with
  | nil => simp at hl
  | cons a as ih =>
    cases j with
    | zero =>
      rw [List.getElem?_cons_zero] at hl
      obtain rfl : a = l := by injection hl
      by_cases ha : (a.id == i) = true
      · refine ⟨closeLeg a ed xp op c, ?_, ?_, ?_, rfl, rfl, rfl, rfl,
          rfl, rfl, rfl, rfl, rfl, rfl, rfl, rfl, rfl, rfl⟩
        · simp [closeLegById, ha]
        · intro h1 hprev
          exact ⟨rfl, rfl, rfl, rfl, rfl, rfl, rfl⟩
        · intro hcase
          rcases hcase with hne | ⟨k, hk, hrest⟩
          · exact absurd (eq_of_beq ha) hne
          · exact absurd hk (Nat.not_lt_zero k)
      · refine ⟨a, ?_, ?_, fun hcase => rfl, rfl, rfl, rfl, rfl, rfl,
          rfl, rfl, rfl, rfl, rfl, rfl, rfl, rfl, rfl⟩
        · simp [closeLegById, ha]
        · intro h1 hprev
          exact absurd h1 (by simpa using ha)
    | succ j =>
      rw [List.getElem?_cons_succ] at hl
      by_cases ha : (a.id == i) = true
      · refine ⟨l, ?_, ?_, fun hcase => rfl, rfl, rfl, rfl, rfl, rfl,
          rfl, rfl, rfl, rfl, rfl, rfl, rfl, rfl, rfl⟩
        · simp only [closeLegById, ha, if_true, List.getElem?_cons_succ]
          exact hl
        · intro h1 hprev
          exact absurd (eq_of_beq ha)
            (hprev 0 (Nat.succ_pos j) a List.getElem?_cons_zero)
      · obtain ⟨l', hget, heff, hunch, hpres⟩ := ih j hl
        refine ⟨l', ?_, ?_, ?_, hpres⟩
        · simpa [closeLegById, ha] using hget
        · intro h1 hprev
          refine heff h1 ?_
          intro k hk b hb
          refine hprev (k + 1) (Nat.succ_lt_succ hk) b ?_
          rw [List.getElem?_cons_succ]
          exact hb
        · intro hcase
          refine hunch ?_
          rcases hcase with hne | ⟨k, hk, b, hb, hbid⟩
          · exact Or.inl hne
          · cases k with
            | zero =>
              rw [List.getElem?_cons_zero] at hb
              obtain rfl : a = b := by injection hb
              exact absurd hbid (by simpa using ha)
            | succ k =>
              rw [List.getElem?_cons_succ] at hb
              exact Or.inr ⟨k, Nat.lt_of_succ_lt_succ hk, b, hb, hbid⟩

/-- An open stock leg carrying an entry-time comment. -/
def openStockLeg : Leg :=
  { stockLongLeg with
      id := 21, is_open := true, pnl := none, exit_date := none,
      exit_underlying_px := none, comments := "entry thesis" }

/-- C9 counterexample: the close handler also assigns the comments field
(journal_core.py line 697), so a close that submits different closing notes
changes a field outside the claim's exit-related set. -/
theorem C9_counterexample :
    (closeLegById [openStockLeg] 21 (some ⟨2024, 5, 1⟩) (some 110) none
        "closing note").map (fun l => l.comments) = ["closing note"] ∧
    openStockLeg.comments = "entry thesis" ∧
    ("closing note" : String) ≠ "entry thesis" := by
  refine ⟨?_, rfl, by decide⟩
  with_unfolding_all rfl

theorem C9_close_frame_witness :
    (closeLegById [openStockLeg] 21 (some ⟨2024, 5, 1⟩) (some 110) none
        "closing note")[0]? =
      some (closeLeg openStockLeg (some ⟨2024, 5, 1⟩) (some 110) none
        "closing note") ∧
    (closeLeg openStockLeg (some ⟨2024, 5, 1⟩) (some 110) none
        "closing note").is_open = false ∧
    (closeLeg openStockLeg (some ⟨2024, 5, 1⟩) (some 110) none
        "closing note").comments = "closing note" ∧
    (closeLeg openStockLeg (some ⟨2024, 5, 1⟩) (some 110) none
        "closing note").entry_date = openStockLeg.entry_date := by
  obtain ⟨l', hget, heff, hunch, hpres⟩ :=
    C9_close_frame [openStockLeg] 21 (some ⟨2024, 5, 1⟩) (some 110) none
      "closing note" 0 openStockLeg rfl
  obtain ⟨hcl, hopen, hed, hxp, hop, hcom, hpnl⟩ :=
    heff rfl (fun k hk => absurd hk (Nat.not_lt_zero k))
  subst hcl
  exact ⟨hget, hopen, hcom, rfl⟩
